import Mathlib

/-!
Matterfoss: LDAP group link handlers and the system key-value store.

A shallow embedding of

* `api4/ldap.go`: the handlers `getLdapGroups`, `linkLdapGroup`, `unlinkLdapGroup`;
* `store/sqlstore/system_store.go`: `GetByName` and `InsertIfExists`.

Go strings are byte sequences: `len` counts bytes and `s[:n]` slices bytes, so a
Go `string` is a list of bytes here.  A Go result pair `(*T, *model.AppError)` is a pair of
options (`none` is the nil pointer).  The collaborators that the handlers call through
`c.App` and the SQL layer that the store calls through `gorp` are parameters of the
embedded functions.
-/

set_option autoImplicit false

namespace Matterfoss

/-! ## Shared types -/

/-- A Go `string`: a sequence of bytes. -/
abbrev GoString := List (Fin 256)

/-- Modelled from the spec: `model.AppError` (declared outside the given sources), with the
fields that `model.NewAppError(where, id, params, details, status)` fills in. The handlers
read `DetailedError`; the status code carries the error kind. -/
structure AppError where
  Where : String
  Id : String
  DetailedError : String
  StatusCode : Nat
deriving DecidableEq, Repr

/-- The call `model.NewAppError(where, id, nil, details, status)`. -/
def NewAppError (wher id details : String) (status : Nat) : AppError :=
  { Where := wher, Id := id, DetailedError := details, StatusCode := status }

/-- The constant `http.StatusOK`. -/
def StatusOK : Nat := 200
/-- The constant `http.StatusCreated`. -/
def StatusCreated : Nat := 201
/-- The constant `http.StatusNotFound`. -/
def StatusNotFound : Nat := 404
/-- The constant `http.StatusInternalServerError`. -/
def StatusInternalServerError : Nat := 500
/-- The constant `http.StatusNotImplemented`. -/
def StatusNotImplemented : Nat := 501

/-- Errors of `database/sql` and of the driver: `sql.ErrNoRows` or any other failure,
carrying its message. -/
inductive SqlError where
  | ErrNoRows
  | other (msg : String)
deriving DecidableEq, Repr

/-- The method `err.Error()`; `sql.ErrNoRows.Error()` is the fixed text of `database/sql`. -/
def SqlError.Error : SqlError → String
  | .ErrNoRows => "sql: no rows in result set"
  | .other msg => msg

/-! ## `store/sqlstore/system_store.go` -/

/-- The struct `model.System`: a named value. -/
structure System where
  Name : GoString
  Value : GoString
deriving DecidableEq, Repr

/-- The SQL layer under `SqlSystemStore`, over database states `δ` and open transactions `τ`.
`SelectOne` and `TxSelectOne` run `SELECT * FROM Systems WHERE Name = :Name` on the master
connection and inside a transaction. `Rollback` gives the database state left when a
transaction ends without a successful commit. -/
structure SqlStore (δ τ : Type) where
  SelectOne : δ → GoString → Except SqlError System
  BeginTx : δ → Except SqlError τ
  TxSelectOne : τ → GoString → Except SqlError System
  TxInsert : τ → System → Except SqlError τ
  Commit : τ → Except SqlError δ
  Rollback : τ → δ

/-- `SqlSystemStore.GetByName`. -/
def GetByName {δ τ : Type} (s : SqlStore δ τ) (db : δ) (name : GoString) :
    Option System × Option AppError :=
  match s.SelectOne db name with
  | .error err =>
    (none, some (NewAppError "SqlSystemStore.GetByName" "store.sql_system.get_by_name.app_error"
      err.Error StatusInternalServerError))
  | .ok system => (some system, none)

/-- `SqlSystemStore.InsertIfExists`: the result pair and the database state once the deferred
`finalizeTransaction` has run (a transaction that was not committed is rolled back). -/
def InsertIfExists {δ τ : Type} (s : SqlStore δ τ) (db : δ) (system : System) :
    (Option System × Option AppError) × δ :=
  match s.BeginTx db with
  | .error err =>
    ((none, some (NewAppError "SqlSystemStore.InsertIfExists" "store.sql_system.save.app_error"
      err.Error StatusInternalServerError)), db)
  | .ok tx =>
    -- var origSystem model.System; tx.SelectOne(&origSystem, ...)
    let selected : Except AppError System :=
      match s.TxSelectOne tx system.Name with
      | .ok row => .ok row
      | .error err =>
        if err ≠ SqlError.ErrNoRows then
          .error (NewAppError "SqlSystemStore.InsertIfExists"
            "store.sql_system.get_by_name.app_error" err.Error StatusInternalServerError)
        else .ok { Name := [], Value := [] }
    match selected with
    | .error appErr => ((none, some appErr), s.Rollback tx)
    | .ok origSystem =>
      if origSystem.Value ≠ [] then
        -- Already a value exists, return that.
        ((some origSystem, none), s.Rollback tx)
      else
        -- Key does not exist, need to insert.
        match s.TxInsert tx system with
        | .error err =>
          ((none, some (NewAppError "SqlSystemStore.InsertIfExists"
            "store.sql_system.save.app_error" err.Error StatusInternalServerError)),
            s.Rollback tx)
        | .ok tx2 =>
          match s.Commit tx2 with
          | .error err =>
            ((none, some (NewAppError "SqlSystemStore.InsertIfExists"
              "store.sql_system.save.commit_transaction.app_error" err.Error
              StatusInternalServerError)), s.Rollback tx2)
          | .ok db2 => ((some system, none), db2)

/-- The table `Systems`, keyed by `Name` (`SetKeys(false, "Name")`): at most one value per
name. -/
abbrev Table := GoString → Option GoString

/-- The table with no rows. -/
def Table.empty : Table := fun _ => none

/-- The table with the row `(name, value)` put in place. -/
def Table.put (t : Table) (name value : GoString) : Table :=
  fun n => if n = name then some value else t n

/-- The failure of an `INSERT` that repeats a primary key. -/
def duplicateKey : SqlError := .other "duplicate entry for key Name"

/-- A database made of the keyed table `Systems` alone, used by one caller at a time. An open
transaction is the table at `BeginTx` together with the working table; an insert of a name
that has a row violates the key; commit publishes the working table and rollback restores
the table at `BeginTx`. -/
def tableStore : SqlStore Table (Table × Table) where
  SelectOne := fun t name =>
    match t name with
    | some v => .ok { Name := name, Value := v }
    | none => .error .ErrNoRows
  BeginTx := fun t => .ok (t, t)
  TxSelectOne := fun tx name =>
    match tx.2 name with
    | some v => .ok { Name := name, Value := v }
    | none => .error .ErrNoRows
  TxInsert := fun tx system =>
    match tx.2 system.Name with
    | some _ => .error duplicateKey
    | none => .ok (tx.1, tx.2.put system.Name system.Value)
  Commit := fun tx => .ok tx.2
  Rollback := fun tx => tx.1

/-! ## `api4/ldap.go` -/

/-- The Go type `model.GroupSource`, a string. -/
abbrev GroupSource := GoString

/-- Modelled from the spec: `model.Group` (declared outside the given sources), the
InternalGroup of the data model with the fields the handlers touch: the surrogate `Id`, the
`DisplayName`, the `Source` tag, the `RemoteId`, the soft-delete stamp `DeleteAt` (zero means
linked) and `HasSyncables`. `Extra` stands for all the fields the handlers never name. -/
structure Group (ε : Type) where
  Id : GoString
  DisplayName : GoString
  Source : GroupSource
  RemoteId : GoString
  DeleteAt : Int
  HasSyncables : Bool
  Extra : ε
deriving DecidableEq, Repr

/-- Modelled from the spec: the ExternalGroupRecord that `c.App.GetLdapGroup` returns (its
type is declared outside the given sources); `linkLdapGroup` reads `RemoteId` and
`DisplayName`. -/
structure LdapGroup where
  RemoteId : GoString
  DisplayName : GoString
  HasNestedEntries : Bool
deriving DecidableEq, Repr

/-- Modelled from the spec: the constants of package `model` that the handlers use and whose
declarations are outside the given sources. -/
structure ModelConsts where
  GroupDisplayNameMaxLength : Nat
  GroupSourceLdap : GroupSource
deriving DecidableEq, Repr

/-- The struct `model.LdapGroupSearchOpts`. -/
structure LdapGroupSearchOpts where
  Q : GoString
  IsLinked : Option Bool
  IsConfigured : Option Bool
deriving DecidableEq, Repr

/-- The permissions the handlers ask for. -/
inductive Permission where
  | PERMISSION_MANAGE_SYSTEM
deriving DecidableEq, Repr

/-- The licence features read by the handlers (`*License().Features.LDAPGroups`). -/
structure Features where
  LDAP : Bool
  LDAPGroups : Bool
deriving DecidableEq, Repr

/-- The licence returned by `c.App.Srv().License()`. -/
structure License where
  Features : Features
deriving DecidableEq, Repr

/-- The request parameters `c.Params` read by the handlers. -/
structure Params where
  RemoteId : GoString
  Q : GoString
  IsLinked : Option Bool
  IsConfigured : Option Bool
  Page : Int
  PerPage : Int
deriving DecidableEq, Repr

/-- The request context `c` without its `App`: the parameters, the error (if any) that
`c.RequireRemoteId()` leaves in `c.Err`, and the error that `c.SetPermissionError` stores. -/
structure Context where
  Params : Params
  RequireRemoteId : Option AppError
  SetPermissionError : Permission → AppError

/-- The collaborators reached through `c.App`, over application states `σ`. Lookups and
searches read the state; `CreateGroup`, `UpdateGroup` and `DeleteGroup` also yield the next
state. -/
structure App (σ ε : Type) where
  SessionHasPermissionTo : Permission → Bool
  License : Option License
  GetLdapGroup : σ → GoString → Option LdapGroup × Option AppError
  GetAllLdapGroupsPage : σ → Int → Int → LdapGroupSearchOpts →
    List (Group ε) × Int × Option AppError
  GetGroupByRemoteID : σ → GoString → GroupSource → Option (Group ε) × Option AppError
  CreateGroup : σ → Group ε → (Option (Group ε) × Option AppError) × σ
  UpdateGroup : σ → Group ε → (Option (Group ε) × Option AppError) × σ
  DeleteGroup : σ → GoString → (Option (Group ε) × Option AppError) × σ

/-- What a handler leaves behind: `c.Err` set and nothing written, or a response written with
a status and the value that was marshalled to JSON, or a nil pointer dereference. -/
inductive Outcome (β : Type) where
  | err (e : AppError)
  | wrote (status : Nat) (body : β)
  | nilDereference
deriving DecidableEq, Repr

/-- The status code of a written response. -/
def Outcome.status {β : Type} : Outcome β → Option Nat
  | .wrote status _ => some status
  | _ => none

/-- The struct `mixedUnlinkedGroup`; `none` is the nil pointer, JSON `null`. -/
structure mixedUnlinkedGroup where
  Id : Option GoString
  DisplayName : GoString
  RemoteId : GoString
  HasSyncables : Option Bool
deriving DecidableEq, Repr

/-- The anonymous struct that `getLdapGroups` marshals. -/
structure LdapGroupsPage where
  Count : Int
  Groups : List mixedUnlinkedGroup
deriving DecidableEq, Repr

/-- The handler `getLdapGroups`. The rows of `GetAllLdapGroupsPage` are pointers to distinct
groups, so `&group.Id` and `&group.HasSyncables` point into the row of the current iteration.
`w.Write` without `WriteHeader` answers with status 200. -/
def getLdapGroups {σ ε : Type} (app : App σ ε) (c : Context) (s : σ) : Outcome LdapGroupsPage :=
  if !app.SessionHasPermissionTo .PERMISSION_MANAGE_SYSTEM then
    .err (c.SetPermissionError .PERMISSION_MANAGE_SYSTEM)
  else if (match app.License with
      | none => true
      | some license => !license.Features.LDAPGroups) then
    .err (NewAppError "Api4.getLdapGroups" "api.ldap_groups.license_error" ""
      StatusNotImplemented)
  else
    let opts : LdapGroupSearchOpts := { Q := c.Params.Q, IsLinked := none, IsConfigured := none }
    let opts := if c.Params.IsLinked ≠ none then { opts with IsLinked := c.Params.IsLinked }
      else opts
    let opts := if c.Params.IsConfigured ≠ none then
        { opts with IsConfigured := c.Params.IsConfigured }
      else opts
    match app.GetAllLdapGroupsPage s c.Params.Page c.Params.PerPage opts with
    | (_, _, some err) => .err err
    | (groups, total, none) =>
      let mugs : List mixedUnlinkedGroup := groups.foldl (fun mugs group =>
        let mug : mixedUnlinkedGroup :=
          { Id := none, DisplayName := group.DisplayName, RemoteId := group.RemoteId,
            HasSyncables := none }
        let mug := if group.Id.length = 26 then
            { mug with Id := some group.Id, HasSyncables := some group.HasSyncables }
          else mug
        mugs ++ [mug]) []
      .wrote StatusOK { Count := total, Groups := mugs }

/-- The display name that `linkLdapGroup` computes under the comment "Truncate display name
if necessary": the external name, cut to its first `GroupDisplayNameMaxLength` bytes when
`len` exceeds that bound. -/
def truncateDisplayName (m : ModelConsts) (displayName : GoString) : GoString :=
  if displayName.length > m.GroupDisplayNameMaxLength then
    displayName.take m.GroupDisplayNameMaxLength
  else displayName

/-- The handler `linkLdapGroup`: what it leaves behind and the next application state. The
body of a written response is the pointer `newOrUpdatedGroup` that is marshalled (marshalling
a group does not fail). The audit record, which only logs, is left out. -/
def linkLdapGroup {σ ε : Type} [Inhabited ε] (m : ModelConsts) (app : App σ ε) (c : Context)
    (s : σ) : Outcome (Option (Group ε)) × σ :=
  match c.RequireRemoteId with
  | some e => (.err e, s)
  | none =>
  if !app.SessionHasPermissionTo .PERMISSION_MANAGE_SYSTEM then
    (.err (c.SetPermissionError .PERMISSION_MANAGE_SYSTEM), s)
  else if (match app.License with
      | none => true
      | some license => !license.Features.LDAPGroups) then
    (.err (NewAppError "Api4.linkLdapGroup" "api.ldap_groups.license_error" ""
      StatusNotImplemented), s)
  else
    match app.GetLdapGroup s c.Params.RemoteId with
    | (_, some err) => (.err err, s)
    | (none, none) =>
      (.err (NewAppError "Api4.linkLdapGroup" "api.ldap_group.not_found" "" StatusNotFound), s)
    | (some ldapGroup, none) =>
      match app.GetGroupByRemoteID s ldapGroup.RemoteId m.GroupSourceLdap with
      | (group, err) =>
        -- err != nil && err.DetailedError != sql.ErrNoRows.Error()
        match err.filter (fun e => decide (e.DetailedError ≠ SqlError.ErrNoRows.Error)) with
        | some err => (.err err, s)
        | none =>
          let displayName := truncateDisplayName m ldapGroup.DisplayName
          match group with
          | some group =>
            -- Group has been previously linked
            if group.DeleteAt = 0 then
              (.wrote StatusOK (some group), s)
            else
              let group := { group with
                DeleteAt := 0, DisplayName := displayName, RemoteId := ldapGroup.RemoteId }
              match app.UpdateGroup s group with
              | ((_, some err), s2) => (.err err, s2)
              | ((newOrUpdatedGroup, none), s2) => (.wrote StatusOK newOrUpdatedGroup, s2)
          | none =>
            -- Group has never been linked
            let newGroup : Group ε :=
              { Id := [], DisplayName := displayName, Source := m.GroupSourceLdap,
                RemoteId := ldapGroup.RemoteId, DeleteAt := 0, HasSyncables := false,
                Extra := default }
            match app.CreateGroup s newGroup with
            | ((_, some err), s2) => (.err err, s2)
            | ((newOrUpdatedGroup, none), s2) => (.wrote StatusCreated newOrUpdatedGroup, s2)

/-- The handler `unlinkLdapGroup`: what it leaves behind and the next application state.
`ReturnStatusOK` answers with status 200 and the fixed body `\x7b"status":"OK"\x7d`. Reading
`group.DeleteAt` through a nil `group` is a nil pointer dereference. The audit record, which
only logs, is left out. -/
def unlinkLdapGroup {σ ε : Type} (m : ModelConsts) (app : App σ ε) (c : Context) (s : σ) :
    Outcome Unit × σ :=
  match c.RequireRemoteId with
  | some e => (.err e, s)
  | none =>
  if !app.SessionHasPermissionTo .PERMISSION_MANAGE_SYSTEM then
    (.err (c.SetPermissionError .PERMISSION_MANAGE_SYSTEM), s)
  else if (match app.License with
      | none => true
      | some license => !license.Features.LDAPGroups) then
    (.err (NewAppError "Api4.unlinkLdapGroup" "api.ldap_groups.license_error" ""
      StatusNotImplemented), s)
  else
    match app.GetGroupByRemoteID s c.Params.RemoteId m.GroupSourceLdap with
    | (_, some err) => (.err err, s)
    | (none, none) => (.nilDereference, s)
    | (some group, none) =>
      if group.DeleteAt = 0 then
        match app.DeleteGroup s group.Id with
        | ((_, some err), s2) => (.err err, s2)
        | ((_, none), s2) => (.wrote StatusOK (), s2)
      else
        (.wrote StatusOK (), s)

/-! ## Recording the repository writes -/

/-- A write sent to the group repository. -/
inductive Write (ε : Type) where
  | create (group : Group ε)
  | update (group : Group ε)
  | delete (id : GoString)
deriving DecidableEq, Repr

/-- The same application, with every `CreateGroup`, `UpdateGroup` and `DeleteGroup` call
appended, with its argument, to a log carried next to the state. -/
def App.traced {σ ε : Type} (app : App σ ε) : App (σ × List (Write ε)) ε where
  SessionHasPermissionTo := app.SessionHasPermissionTo
  License := app.License
  GetLdapGroup := fun s => app.GetLdapGroup s.1
  GetAllLdapGroupsPage := fun s => app.GetAllLdapGroupsPage s.1
  GetGroupByRemoteID := fun s => app.GetGroupByRemoteID s.1
  CreateGroup := fun s g => ((app.CreateGroup s.1 g).1, ((app.CreateGroup s.1 g).2,
    s.2 ++ [Write.create g]))
  UpdateGroup := fun s g => ((app.UpdateGroup s.1 g).1, ((app.UpdateGroup s.1 g).2,
    s.2 ++ [Write.update g]))
  DeleteGroup := fun s id => ((app.DeleteGroup s.1 id).1, ((app.DeleteGroup s.1 id).2,
    s.2 ++ [Write.delete id]))

/-- The checks that come before the repository is consulted in `linkLdapGroup` and
`unlinkLdapGroup` all pass: the remote id is accepted, the session may manage the system and
the licence is present with the LDAP groups feature. -/
def passesGuards {σ ε : Type} (app : App σ ε) (c : Context) : Prop :=
  c.RequireRemoteId = none ∧
  app.SessionHasPermissionTo .PERMISSION_MANAGE_SYSTEM = true ∧
  app.License.map (fun license => license.Features.LDAPGroups) = some true

instance {σ ε : Type} (app : App σ ε) (c : Context) : Decidable (passesGuards app c) := by
  unfold passesGuards
  infer_instance

/-! ## An in-memory application -/

/-- The state of the in-memory application: the external directory, the rows of the group
repository, the clock and the counter that feeds the next surrogate id. -/
structure Mem where
  directory : List LdapGroup
  groups : List (Group Unit)
  now : Int
  nextId : Nat
deriving DecidableEq, Repr

/-- The surrogate id number `n`: 26 bytes, the base-256 digits of `n`. -/
def NewId (n : Nat) : GoString :=
  (List.range 26).map fun i => Fin.ofNat (n / 256 ^ i % 256)

/-- The error of a repository lookup that finds no row: kind NotFound, with the text of
`sql.ErrNoRows` as its detail. -/
def noRowsError : AppError :=
  NewAppError "SqlGroupStore.GroupGetByRemoteID" "store.sql_group.no_rows"
    SqlError.ErrNoRows.Error StatusNotFound

/-- Modelled from the spec: the collaborators ExternalDirectorySource and GroupRepository
(their code is outside the given sources), held in memory. `GetLdapGroup` finds the external
record by remote id. `GetGroupByRemoteID` fails with NotFound when no row has the
(remoteId, source) pair and returns the row when exactly one has it. `CreateGroup` stores
the new row with `DeleteAt = 0` under the next surrogate id and returns it; `UpdateGroup`
replaces the row that has the same id; `DeleteGroup` stamps `DeleteAt` of a linked row with
the current time. `GetAllLdapGroupsPage` lists one row per external record, carrying the
linked internal group when there is one, and pages the list. -/
def memApp : App Mem Unit where
  SessionHasPermissionTo := fun _ => true
  License := some { Features := { LDAP := true, LDAPGroups := true } }
  GetLdapGroup := fun s remoteId =>
    (s.directory.find? (fun r => decide (r.RemoteId = remoteId)), none)
  GetAllLdapGroupsPage := fun s page perPage _ =>
    let rows : List (Group Unit) := s.directory.map fun r =>
      match s.groups.find? (fun g => decide (g.RemoteId = r.RemoteId ∧ g.DeleteAt = 0)) with
      | some g => g
      | none =>
        { Id := [], DisplayName := r.DisplayName, Source := [], RemoteId := r.RemoteId,
          DeleteAt := 0, HasSyncables := false, Extra := () }
    ((rows.drop (page.toNat * perPage.toNat)).take perPage.toNat, rows.length, none)
  GetGroupByRemoteID := fun s remoteId source =>
    match s.groups.filter (fun g => decide (g.RemoteId = remoteId ∧ g.Source = source)) with
    | [] => (none, some noRowsError)
    | [g] => (some g, none)
    | _ =>
      (none, some (NewAppError "SqlGroupStore.GroupGetByRemoteID"
        "store.sql_group.select_error" "multiple rows" StatusInternalServerError))
  CreateGroup := fun s g =>
    let row : Group Unit := { g with Id := NewId s.nextId, DeleteAt := 0 }
    ((some row, none), { s with groups := s.groups ++ [row], nextId := s.nextId + 1 })
  UpdateGroup := fun s g =>
    if s.groups.any (fun r => decide (r.Id = g.Id)) then
      ((some g, none),
        { s with groups := s.groups.map fun r => if r.Id = g.Id then g else r })
    else
      ((none, some (NewAppError "SqlGroupStore.GroupUpdate" "store.sql_group.no_rows"
        SqlError.ErrNoRows.Error StatusNotFound)), s)
  DeleteGroup := fun s id =>
    match s.groups.find? (fun r => decide (r.Id = id ∧ r.DeleteAt = 0)) with
    | some row =>
      ((some { row with DeleteAt := s.now }, none),
        { s with groups := s.groups.map fun r =>
            if r.Id = id then { r with DeleteAt := s.now } else r })
    | none =>
      ((none, some (NewAppError "SqlGroupStore.GroupDelete" "store.sql_group.no_rows"
        SqlError.ErrNoRows.Error StatusNotFound)), s)

/-! ## Concrete inputs -/

/-- Constants for the concrete inputs: a display name bound of 4 bytes and the source tag
"ldap". -/
def exampleConsts : ModelConsts :=
  { GroupDisplayNameMaxLength := 4, GroupSourceLdap := [108, 100, 97, 112] }

/-- A request for the remote id "e" that passes `RequireRemoteId`. -/
def exampleContext : Context :=
  { Params :=
      { RemoteId := [101], Q := [], IsLinked := none, IsConfigured := none, Page := 0,
        PerPage := 10 }
    RequireRemoteId := none
    SetPermissionError := fun _ =>
      NewAppError "Permissions" "api.context.permissions.app_error" "" 403 }

/-- The external record with remote id "e" and the six-byte display name "Engine". -/
def exampleRecord : LdapGroup :=
  { RemoteId := [101], DisplayName := [69, 110, 103, 105, 110, 101], HasNestedEntries := true }

/-- A state whose repository has no rows. -/
def memFresh : Mem :=
  { directory := [exampleRecord], groups := [], now := 1000, nextId := 7 }

/-- A row for the remote id "e" with the display name "Old", the 26-byte id `NewId 3` and
the given `DeleteAt`. -/
def exampleRow (deleteAt : Int) : Group Unit :=
  { Id := NewId 3, DisplayName := [79, 108, 100], Source := [108, 100, 97, 112],
    RemoteId := [101], DeleteAt := deleteAt, HasSyncables := true, Extra := () }

/-- A state whose repository holds the row for "e", linked. -/
def memLinked : Mem :=
  { directory := [exampleRecord], groups := [exampleRow 0], now := 1000, nextId := 7 }

/-- A state whose repository holds the row for "e", soft-deleted at time 500. -/
def memUnlinked : Mem :=
  { directory := [exampleRecord], groups := [exampleRow 500], now := 1000, nextId := 7 }

/-- The external record with remote id "f" and the display name "Ops", never linked. -/
def exampleRecord2 : LdapGroup :=
  { RemoteId := [102], DisplayName := [79, 112, 115], HasNestedEntries := false }

/-- A state with two external records, of which only "e" is linked. -/
def memMixed : Mem :=
  { directory := [exampleRecord, exampleRecord2], groups := [exampleRow 0], now := 1000,
    nextId := 7 }

/-- A request for page `page` of the listing, one row per page. -/
def pageContext (page : Int) : Context :=
  { exampleContext with Params := { exampleContext.Params with Page := page, PerPage := 1 } }

/-- The row that the in-memory application stores when "e" is linked from `memFresh`: the
id `NewId 7` and the display name "Engi". -/
def createdRow : Group Unit :=
  { Id := NewId 7, DisplayName := [69, 110, 103, 105], Source := [108, 100, 97, 112],
    RemoteId := [101], DeleteAt := 0, HasSyncables := false, Extra := () }

/-- The state that follows `memFresh` once "e" is linked. -/
def memCreated : Mem :=
  { directory := [exampleRecord], groups := [createdRow], now := 1000, nextId := 8 }

/-! ## Theorems: the system store -/

/-- When the name has no row, `InsertIfExists` inserts the record, commits and returns it. -/
theorem InsertIfExists_of_absent (t : Table) (system : System) (h : t system.Name = none) :
    InsertIfExists tableStore t system =
      ((some system, none), t.put system.Name system.Value) := by
  simp [InsertIfExists, tableStore, h]

/-- When the name has a row with a non-empty value, `InsertIfExists` returns that row and
leaves the table as it was. -/
theorem InsertIfExists_of_value (t : Table) (system : System) (v : GoString)
    (h : t system.Name = some v) (hv : v ≠ []) :
    InsertIfExists tableStore t system =
      ((some { Name := system.Name, Value := v }, none), t) := by
  simp [InsertIfExists, tableStore, h, hv]

/-- When the name has a row with an empty value, `InsertIfExists` attempts the insert, which
violates the key, and returns the error with the table as it was. -/
theorem InsertIfExists_of_empty_value (t : Table) (system : System)
    (h : t system.Name = some []) :
    InsertIfExists tableStore t system =
      ((none, some (NewAppError "SqlSystemStore.InsertIfExists"
        "store.sql_system.save.app_error" duplicateKey.Error StatusInternalServerError)),
        t) := by
  simp [InsertIfExists, tableStore, h]

/-- After `put`, the name reads back the value that was put. -/
theorem Table.put_same (t : Table) (name value : GoString) : t.put name value name = some value := by
  simp [Table.put]

/-- Where `InsertIfExists` does what its doc comment says: when the name has no row, the
record is inserted and returned and `GetByName` then returns it; when the name has a row with
a non-empty value, that row is returned, the table is unchanged and `GetByName` returns that
row. -/
theorem InsertIfExists_then_GetByName (t : Table) (system : System) :
    (t system.Name = none →
      (InsertIfExists tableStore t system).1 = (some system, none) ∧
      GetByName tableStore (InsertIfExists tableStore t system).2 system.Name =
        (some system, none)) ∧
    (∀ v, t system.Name = some v → v ≠ [] →
      InsertIfExists tableStore t system =
        ((some { Name := system.Name, Value := v }, none), t) ∧
      GetByName tableStore (InsertIfExists tableStore t system).2 system.Name =
        (some { Name := system.Name, Value := v }, none)) := by
  refine ⟨?_, ?_⟩
  · intro h
    rw [InsertIfExists_of_absent t system h]
    simp [GetByName, tableStore, Table.put]
  · intro v h hv
    rw [InsertIfExists_of_value t system v h hv]
    simp [GetByName, tableStore, h]

/-- Claim C7, at the input where the code departs from it: the table holds the row
("k", "") and the record ("k", "v") is given. No row with that name and a non-empty value
exists, yet `InsertIfExists` neither inserts nor returns a record: it returns the error of
the failed insert, the table still holds ("k", ""), and `GetByName` afterwards returns the
empty value, not "v". -/
theorem InsertIfExists_empty_valued_row_fails :
    InsertIfExists tableStore (Table.empty.put [107] []) { Name := [107], Value := [118] } =
      ((none, some (NewAppError "SqlSystemStore.InsertIfExists"
        "store.sql_system.save.app_error" "duplicate entry for key Name" 500)),
        Table.empty.put [107] []) ∧
    GetByName tableStore
        (InsertIfExists tableStore (Table.empty.put [107] [])
          { Name := [107], Value := [118] }).2 [107] =
      (some { Name := [107], Value := [] }, none) := by
  have h := InsertIfExists_of_empty_value (Table.empty.put [107] [])
    { Name := [107], Value := [118] } (Table.put_same _ _ _)
  refine ⟨h, ?_⟩
  rw [h]
  simp [GetByName, tableStore, Table.put]

/-- Claim C9 as stated fails: on the empty table, where the name "k" has no row, `GetByName`
returns no record and an error whose status is 500 (internal server error), not 404
(not found); its id is the one `GetByName` gives to every storage error. -/
theorem GetByName_absent_is_not_NotFound :
    (GetByName tableStore Table.empty [107]).1 = none ∧
    ∃ e, (GetByName tableStore Table.empty [107]).2 = some e ∧
      e.StatusCode = StatusInternalServerError ∧ e.StatusCode ≠ StatusNotFound ∧
      e.Id = "store.sql_system.get_by_name.app_error" := by
  refine ⟨rfl, _, rfl, rfl, by decide, rfl⟩

/-- Claim C9, amended: for every table state and name with no row for that name, `GetByName`
returns no record and the error with id store.sql_system.get_by_name.app_error and status
500, whose detail is the text of `sql.ErrNoRows`; when a row exists it returns the name and
value of that row with no error; and over any SQL layer, whatever error the select gives,
the returned error has that same origin, id and status 500, with the message of the cause as
its detail. -/
theorem GetByName_result :
    (∀ (t : Table) (name : GoString), t name = none →
      GetByName tableStore t name =
        (none, some (NewAppError "SqlSystemStore.GetByName"
          "store.sql_system.get_by_name.app_error" "sql: no rows in result set"
          StatusInternalServerError))) ∧
    (∀ (t : Table) (name v : GoString), t name = some v →
      GetByName tableStore t name = (some { Name := name, Value := v }, none)) ∧
    (∀ (δ τ : Type) (s : SqlStore δ τ) (db : δ) (name : GoString) (err : SqlError),
      s.SelectOne db name = .error err →
      GetByName s db name =
        (none, some (NewAppError "SqlSystemStore.GetByName"
          "store.sql_system.get_by_name.app_error" err.Error StatusInternalServerError))) := by
  refine ⟨?_, ?_, ?_⟩
  · intro t name h
    simp [GetByName, tableStore, h, SqlError.Error]
  · intro t name v h
    simp [GetByName, tableStore, h]
  · intro δ τ s db name err h
    simp [GetByName, h]

/-- The amended claim C9 at concrete inputs: the empty table and the name "k"; the table
with the row ("k", "v"); and a select that fails with `sql.ErrNoRows`. -/
theorem GetByName_result_witness :
    GetByName tableStore Table.empty [107] =
      (none, some (NewAppError "SqlSystemStore.GetByName"
        "store.sql_system.get_by_name.app_error" "sql: no rows in result set"
        StatusInternalServerError)) ∧
    GetByName tableStore (Table.empty.put [107] [118]) [107] =
      (some { Name := [107], Value := [118] }, none) ∧
    GetByName tableStore Table.empty [107] =
      (none, some (NewAppError "SqlSystemStore.GetByName"
        "store.sql_system.get_by_name.app_error" SqlError.ErrNoRows.Error
        StatusInternalServerError)) :=
  ⟨GetByName_result.1 Table.empty [107] rfl,
    GetByName_result.2.1 (Table.empty.put [107] [118]) [107] [118] (by decide),
    GetByName_result.2.2 Table (Table × Table) tableStore Table.empty [107] SqlError.ErrNoRows
      rfl⟩

/-- Claim C10 as stated fails in its consequence: on the table holding ("k", "x"), the calls
with ("k", "") and then ("k", "v") both succeed. Each finds the row with the non-empty value
"x" and returns it with no error, and the table stays as it was. -/
theorem InsertIfExists_twice_both_succeed :
    InsertIfExists tableStore (Table.empty.put [107] [120]) { Name := [107], Value := [] } =
      ((some { Name := [107], Value := [120] }, none), Table.empty.put [107] [120]) ∧
    InsertIfExists tableStore
        (InsertIfExists tableStore (Table.empty.put [107] [120])
          { Name := [107], Value := [] }).2 { Name := [107], Value := [118] } =
      ((some { Name := [107], Value := [120] }, none), Table.empty.put [107] [120]) ∧
    ((InsertIfExists tableStore (Table.empty.put [107] [120])
        { Name := [107], Value := [] }).1.2 = none ∧
      (InsertIfExists tableStore
        (InsertIfExists tableStore (Table.empty.put [107] [120])
          { Name := [107], Value := [] }).2 { Name := [107], Value := [118] }).1.2 = none) := by
  have h1 := InsertIfExists_of_value (Table.empty.put [107] [120])
    { Name := [107], Value := [] } [120] (Table.put_same _ _ _) (by decide)
  have h2 := InsertIfExists_of_value (Table.empty.put [107] [120])
    { Name := [107], Value := [118] } [120] (Table.put_same _ _ _) (by decide)
  refine ⟨h1, ?_, ?_, ?_⟩
  · rw [h1]; exact h2
  · rw [h1]
  · rw [h1]; rw [h2]

/-- Claim C10, amended: over the table keyed by name, for every record whose name has a row
with an empty value, `InsertIfExists` does not return the existing row: the insert it
attempts violates the key, so it returns that error with no record and leaves the table
unchanged. Consequently, when the name has no row with a non-empty value, two calls in
sequence with that name, the first with an empty value, do not both succeed. -/
theorem InsertIfExists_empty_value_edge :
    (∀ (t : Table) (system : System), t system.Name = some [] →
      InsertIfExists tableStore t system =
        ((none, some (NewAppError "SqlSystemStore.InsertIfExists"
          "store.sql_system.save.app_error" duplicateKey.Error StatusInternalServerError)),
          t)) ∧
    (∀ (t : Table) (first second : System), first.Value = [] → second.Name = first.Name →
      (∀ v, t first.Name = some v → v = []) →
      ¬ ((InsertIfExists tableStore t first).1.2 = none ∧
         (InsertIfExists tableStore (InsertIfExists tableStore t first).2 second).1.2 =
           none)) := by
  refine ⟨InsertIfExists_of_empty_value, ?_⟩
  intro t first second hval hname hempty
  cases hrow : t first.Name with
  | none =>
    rw [InsertIfExists_of_absent t first hrow]
    have h2 : (t.put first.Name first.Value) second.Name = some [] := by
      rw [hname, hval]; exact Table.put_same _ _ _
    rw [InsertIfExists_of_empty_value _ second h2]
    simp
  | some v =>
    have hv : v = [] := hempty v hrow
    subst hv
    rw [InsertIfExists_of_empty_value t first hrow]
    simp

/-- The amended claim C10 at concrete inputs: the record ("k", "v") against the table holding
("k", ""); and, from the empty table, the records ("k", "") and then ("k", "v"). -/
theorem InsertIfExists_empty_value_edge_witness :
    InsertIfExists tableStore (Table.empty.put [107] []) { Name := [107], Value := [118] } =
      ((none, some (NewAppError "SqlSystemStore.InsertIfExists"
        "store.sql_system.save.app_error" duplicateKey.Error StatusInternalServerError)),
        Table.empty.put [107] []) ∧
    ¬ ((InsertIfExists tableStore Table.empty { Name := [107], Value := [] }).1.2 = none ∧
       (InsertIfExists tableStore
          (InsertIfExists tableStore Table.empty { Name := [107], Value := [] }).2
          { Name := [107], Value := [118] }).1.2 = none) :=
  ⟨InsertIfExists_empty_value_edge.1 (Table.empty.put [107] [])
      { Name := [107], Value := [118] } (by decide),
    InsertIfExists_empty_value_edge.2 Table.empty { Name := [107], Value := [] }
      { Name := [107], Value := [118] } rfl rfl (by intro v h; cases h)⟩

/-! ## Theorems: the link and unlink handlers -/

/-- The guards, with the licence named. -/
theorem passesGuards_license {σ ε : Type} {app : App σ ε} {c : Context}
    (hg : passesGuards app c) :
    c.RequireRemoteId = none ∧ app.SessionHasPermissionTo .PERMISSION_MANAGE_SYSTEM = true ∧
      ∃ license, app.License = some license ∧ license.Features.LDAPGroups = true := by
  obtain ⟨h1, h2, h3⟩ := hg
  refine ⟨h1, h2, ?_⟩
  cases hl : app.License with
  | none => simp [hl] at h3
  | some license => exact ⟨license, rfl, by simpa [hl] using h3⟩

/-- The guards of the traced application are those of the application. -/
theorem passesGuards_traced {σ ε : Type} (app : App σ ε) (c : Context) :
    passesGuards app.traced c ↔ passesGuards app c := Iff.rfl

/-- With the guards passed and the external record found, a lookup that finds a soft-deleted
row makes `linkLdapGroup` call `UpdateGroup` on the refreshed row and report status 200. -/
theorem linkLdapGroup_of_deleted {σ ε : Type} [Inhabited ε] (m : ModelConsts) (app : App σ ε)
    (c : Context) (s : σ) (ldapGroup : LdapGroup) (prior : Group ε)
    (hg : passesGuards app c)
    (hext : app.GetLdapGroup s c.Params.RemoteId = (some ldapGroup, none))
    (hrow : app.GetGroupByRemoteID s ldapGroup.RemoteId m.GroupSourceLdap = (some prior, none))
    (hdel : prior.DeleteAt ≠ 0) :
    linkLdapGroup m app c s =
      match app.UpdateGroup s { prior with
          DeleteAt := 0, DisplayName := truncateDisplayName m ldapGroup.DisplayName,
          RemoteId := ldapGroup.RemoteId } with
      | ((_, some err), s2) => (.err err, s2)
      | ((newOrUpdatedGroup, none), s2) => (.wrote StatusOK newOrUpdatedGroup, s2) := by
  obtain ⟨h1, h2, license, h3, h4⟩ := passesGuards_license hg
  simp [linkLdapGroup, h1, h2, h3, h4, hext, hrow, hdel]

/-- With the guards passed and the external record found, a lookup that finds a linked row
makes `linkLdapGroup` return that row with status 200 and leave the state alone. -/
theorem linkLdapGroup_of_linked {σ ε : Type} [Inhabited ε] (m : ModelConsts) (app : App σ ε)
    (c : Context) (s : σ) (ldapGroup : LdapGroup) (row : Group ε)
    (hg : passesGuards app c)
    (hext : app.GetLdapGroup s c.Params.RemoteId = (some ldapGroup, none))
    (hrow : app.GetGroupByRemoteID s ldapGroup.RemoteId m.GroupSourceLdap = (some row, none))
    (hdel : row.DeleteAt = 0) :
    linkLdapGroup m app c s = (.wrote StatusOK (some row), s) := by
  obtain ⟨h1, h2, license, h3, h4⟩ := passesGuards_license hg
  simp [linkLdapGroup, h1, h2, h3, h4, hext, hrow, hdel]

/-- With the guards passed and the external record found, a lookup that finds no row (no
error, or the no-rows error) makes `linkLdapGroup` call `CreateGroup` on the new group and
report status 201. -/
theorem linkLdapGroup_of_no_row {σ ε : Type} [Inhabited ε] (m : ModelConsts) (app : App σ ε)
    (c : Context) (s : σ) (ldapGroup : LdapGroup) (noRow : Option AppError)
    (hg : passesGuards app c)
    (hext : app.GetLdapGroup s c.Params.RemoteId = (some ldapGroup, none))
    (hrow : app.GetGroupByRemoteID s ldapGroup.RemoteId m.GroupSourceLdap = (none, noRow))
    (hnf : ∀ e, noRow = some e → e.DetailedError = SqlError.ErrNoRows.Error) :
    linkLdapGroup m app c s =
      match app.CreateGroup s
          { Id := [], DisplayName := truncateDisplayName m ldapGroup.DisplayName,
            Source := m.GroupSourceLdap, RemoteId := ldapGroup.RemoteId, DeleteAt := 0,
            HasSyncables := false, Extra := default } with
      | ((_, some err), s2) => (.err err, s2)
      | ((newOrUpdatedGroup, none), s2) => (.wrote StatusCreated newOrUpdatedGroup, s2) := by
  obtain ⟨h1, h2, license, h3, h4⟩ := passesGuards_license hg
  cases noRow with
  | none => simp [linkLdapGroup, h1, h2, h3, h4, hext, hrow]
  | some e =>
    have he := hnf e rfl
    simp [linkLdapGroup, h1, h2, h3, h4, hext, hrow, he, Option.filter]

/-- The truncated display name is an initial segment of the name, has exactly
`GroupDisplayNameMaxLength` bytes when the name is longer than that, and is the name itself
otherwise. -/
theorem truncateDisplayName_spec (m : ModelConsts) (name : GoString) :
    truncateDisplayName m name <+: name ∧
    (name.length > m.GroupDisplayNameMaxLength →
      (truncateDisplayName m name).length = m.GroupDisplayNameMaxLength) ∧
    (name.length ≤ m.GroupDisplayNameMaxLength → truncateDisplayName m name = name) := by
  unfold truncateDisplayName
  refine ⟨?_, ?_, ?_⟩
  · split
    · exact List.take_prefix _ _
    · exact List.prefix_refl _
  · intro h
    rw [if_pos h, List.length_take]
    omega
  · intro h
    rw [if_neg (by omega)]

/-- Claim C2 (restore): for every external record and every prior row for its
(remoteId, source) with `DeleteAt ≠ 0`, the only repository write of `linkLdapGroup` is one
`UpdateGroup`, issued on the state it was called in, of a row with `DeleteAt = 0`, with the
external remote id, and with the id, the source and every other field of the prior row; no
`CreateGroup` is issued. The display name of that row is the latest external display name,
truncated: its first `GroupDisplayNameMaxLength` bytes, so an initial segment of the
external name, of exactly that many bytes when the external name is longer and the external
name itself when it is at or below the bound. -/
theorem linkLdapGroup_restore {σ ε : Type} [Inhabited ε] (m : ModelConsts) (app : App σ ε)
    (c : Context) (s : σ) (ldapGroup : LdapGroup) (prior : Group ε)
    (hg : passesGuards app c)
    (hext : app.GetLdapGroup s c.Params.RemoteId = (some ldapGroup, none))
    (hrow : app.GetGroupByRemoteID s ldapGroup.RemoteId m.GroupSourceLdap = (some prior, none))
    (hdel : prior.DeleteAt ≠ 0) :
    ∃ g : Group ε,
      (linkLdapGroup m app.traced c (s, [])).2.2 = [Write.update g] ∧
      (linkLdapGroup m app.traced c (s, [])).2.1 = (app.UpdateGroup s g).2 ∧
      (∀ w ∈ (linkLdapGroup m app.traced c (s, [])).2.2, ∀ n, w ≠ Write.create n) ∧
      g.DeleteAt = 0 ∧
      g.DisplayName = ldapGroup.DisplayName.take m.GroupDisplayNameMaxLength ∧
      g.DisplayName <+: ldapGroup.DisplayName ∧
      (ldapGroup.DisplayName.length > m.GroupDisplayNameMaxLength →
        g.DisplayName.length = m.GroupDisplayNameMaxLength) ∧
      (ldapGroup.DisplayName.length ≤ m.GroupDisplayNameMaxLength →
        g.DisplayName = ldapGroup.DisplayName) ∧
      g.RemoteId = ldapGroup.RemoteId ∧
      g.Id = prior.Id ∧ g.Source = prior.Source ∧ g.HasSyncables = prior.HasSyncables ∧
      g.Extra = prior.Extra := by
  refine ⟨{ prior with
    DeleteAt := 0, DisplayName := truncateDisplayName m ldapGroup.DisplayName,
    RemoteId := ldapGroup.RemoteId }, ?_⟩
  have hlog : (linkLdapGroup m app.traced c (s, [])).2 =
      ((app.UpdateGroup s { prior with
        DeleteAt := 0, DisplayName := truncateDisplayName m ldapGroup.DisplayName,
        RemoteId := ldapGroup.RemoteId }).2,
        [Write.update { prior with
          DeleteAt := 0, DisplayName := truncateDisplayName m ldapGroup.DisplayName,
          RemoteId := ldapGroup.RemoteId }]) := by
    rw [linkLdapGroup_of_deleted m app.traced c (s, []) ldapGroup prior
      ((passesGuards_traced app c).2 hg) hext hrow hdel]
    rcases hu : app.UpdateGroup s { prior with
        DeleteAt := 0, DisplayName := truncateDisplayName m ldapGroup.DisplayName,
        RemoteId := ldapGroup.RemoteId } with ⟨⟨r, _ | e⟩, s2⟩ <;>
      simp [App.traced, hu]
  have htake : truncateDisplayName m ldapGroup.DisplayName =
      ldapGroup.DisplayName.take m.GroupDisplayNameMaxLength := by
    unfold truncateDisplayName
    split
    · rfl
    · rw [List.take_of_length_le (by omega)]
  rw [hlog]
  refine ⟨rfl, rfl, by simp, rfl, htake, ?_, ?_, ?_, rfl, rfl, rfl, rfl, rfl⟩
  · show truncateDisplayName m ldapGroup.DisplayName <+: ldapGroup.DisplayName
    rw [htake]
    exact List.take_prefix _ _
  · intro hlong
    show (truncateDisplayName m ldapGroup.DisplayName).length = m.GroupDisplayNameMaxLength
    rw [htake, List.length_take]
    omega
  · intro hshort
    show truncateDisplayName m ldapGroup.DisplayName = ldapGroup.DisplayName
    rw [htake, List.take_of_length_le hshort]

/-- Claim C2 at a concrete input: the remote id "e" whose row, with the display name "Old",
was soft-deleted at time 500, the external name being the six bytes "Engine" and the bound 4
bytes. The row handed to `UpdateGroup` has `DeleteAt = 0` and the display name "Engi", four
bytes, and keeps the id `NewId 3`, the source "ldap" and `HasSyncables`. -/
theorem linkLdapGroup_restore_witness :
    (∃ g : Group Unit,
      (linkLdapGroup exampleConsts memApp.traced exampleContext (memUnlinked, [])).2.2 =
        [Write.update g] ∧
      (linkLdapGroup exampleConsts memApp.traced exampleContext (memUnlinked, [])).2.1 =
        (memApp.UpdateGroup memUnlinked g).2 ∧
      (∀ w ∈ (linkLdapGroup exampleConsts memApp.traced exampleContext (memUnlinked, [])).2.2,
        ∀ n, w ≠ Write.create n) ∧
      g.DeleteAt = 0 ∧
      g.DisplayName = [69, 110, 103, 105] ∧
      g.DisplayName <+: [69, 110, 103, 105, 110, 101] ∧
      ((6 : Nat) > 4 → g.DisplayName.length = 4) ∧
      ((6 : Nat) ≤ 4 → g.DisplayName = [69, 110, 103, 105, 110, 101]) ∧
      g.RemoteId = [101] ∧
      g.Id = NewId 3 ∧ g.Source = [108, 100, 97, 112] ∧
      g.HasSyncables = true ∧
      g.Extra = ()) ∧
    (linkLdapGroup exampleConsts memApp.traced exampleContext (memUnlinked, [])).2.2 =
      [Write.update
        { Id := NewId 3, DisplayName := [69, 110, 103, 105], Source := [108, 100, 97, 112],
          RemoteId := [101], DeleteAt := 0, HasSyncables := true, Extra := () }] :=
  ⟨linkLdapGroup_restore exampleConsts memApp exampleContext memUnlinked exampleRecord
    (exampleRow 500) (by decide) (by decide) (by decide) (by decide), by decide⟩

/-- Claim C4 (truncation): with the guards passed and the external record found, every write
that `linkLdapGroup` issues is a `CreateGroup` or an `UpdateGroup` of a group whose display
name is an initial segment of the external name, has exactly `GroupDisplayNameMaxLength`
bytes when the external name is longer than that, and is the external name unchanged when it
is at or below the bound; a create is issued when the lookup finds no row and an update when
it finds a soft-deleted row. Lengths are Go `len`, counted in bytes. -/
theorem linkLdapGroup_writes_truncated {σ ε : Type} [Inhabited ε] (m : ModelConsts)
    (app : App σ ε) (c : Context) (s : σ) (ldapGroup : LdapGroup)
    (hg : passesGuards app c)
    (hext : app.GetLdapGroup s c.Params.RemoteId = (some ldapGroup, none)) :
    (∀ w ∈ (linkLdapGroup m app.traced c (s, [])).2.2,
      ∃ g : Group ε, (w = Write.create g ∨ w = Write.update g) ∧
        g.DisplayName <+: ldapGroup.DisplayName ∧
        (ldapGroup.DisplayName.length > m.GroupDisplayNameMaxLength →
          g.DisplayName.length = m.GroupDisplayNameMaxLength) ∧
        (ldapGroup.DisplayName.length ≤ m.GroupDisplayNameMaxLength →
          g.DisplayName = ldapGroup.DisplayName)) ∧
    (∀ noRow, app.GetGroupByRemoteID s ldapGroup.RemoteId m.GroupSourceLdap = (none, noRow) →
      (∀ e, noRow = some e → e.DetailedError = SqlError.ErrNoRows.Error) →
      ∃ g, (linkLdapGroup m app.traced c (s, [])).2.2 = [Write.create g]) ∧
    (∀ prior, app.GetGroupByRemoteID s ldapGroup.RemoteId m.GroupSourceLdap =
        (some prior, none) → prior.DeleteAt ≠ 0 →
      ∃ g, (linkLdapGroup m app.traced c (s, [])).2.2 = [Write.update g]) := by
  have hgt := (passesGuards_traced app c).2 hg
  have hcreate : ∀ noRow,
      app.GetGroupByRemoteID s ldapGroup.RemoteId m.GroupSourceLdap = (none, noRow) →
      (∀ e, noRow = some e → e.DetailedError = SqlError.ErrNoRows.Error) →
      (linkLdapGroup m app.traced c (s, [])).2.2 =
        [Write.create
          { Id := [], DisplayName := truncateDisplayName m ldapGroup.DisplayName,
            Source := m.GroupSourceLdap, RemoteId := ldapGroup.RemoteId, DeleteAt := 0,
            HasSyncables := false, Extra := default }] := by
    intro noRow hrow hnf
    rw [linkLdapGroup_of_no_row m app.traced c (s, []) ldapGroup noRow hgt hext hrow hnf]
    rcases hu : app.CreateGroup s
        { Id := [], DisplayName := truncateDisplayName m ldapGroup.DisplayName,
          Source := m.GroupSourceLdap, RemoteId := ldapGroup.RemoteId, DeleteAt := 0,
          HasSyncables := false, Extra := default } with ⟨⟨r, _ | e⟩, s2⟩ <;>
      simp [App.traced, hu]
  have hupdate : ∀ prior,
      app.GetGroupByRemoteID s ldapGroup.RemoteId m.GroupSourceLdap = (some prior, none) →
      prior.DeleteAt ≠ 0 →
      (linkLdapGroup m app.traced c (s, [])).2.2 =
        [Write.update { prior with
          DeleteAt := 0, DisplayName := truncateDisplayName m ldapGroup.DisplayName,
          RemoteId := ldapGroup.RemoteId }] := by
    intro prior hrow hdel
    rw [linkLdapGroup_of_deleted m app.traced c (s, []) ldapGroup prior hgt hext hrow hdel]
    rcases hu : app.UpdateGroup s { prior with
        DeleteAt := 0, DisplayName := truncateDisplayName m ldapGroup.DisplayName,
        RemoteId := ldapGroup.RemoteId } with ⟨⟨r, _ | e⟩, s2⟩ <;>
      simp [App.traced, hu]
  refine ⟨?_, fun noRow hrow hnf => ⟨_, hcreate noRow hrow hnf⟩,
    fun prior hrow hdel => ⟨_, hupdate prior hrow hdel⟩⟩
  intro w hw
  obtain ⟨h1, h2, license, h3, h4⟩ := passesGuards_license hg
  rcases hlook : app.GetGroupByRemoteID s ldapGroup.RemoteId m.GroupSourceLdap with
    ⟨group, err⟩
  by_cases hfatal : ∃ e, err = some e ∧ e.DetailedError ≠ SqlError.ErrNoRows.Error
  · obtain ⟨e, rfl, he⟩ := hfatal
    simp [linkLdapGroup, App.traced, h1, h2, h3, h4, hext, hlook, he, Option.filter] at hw
  · have hnf : ∀ e, err = some e → e.DetailedError = SqlError.ErrNoRows.Error := by
      intro e he
      by_contra hne
      exact hfatal ⟨e, he, hne⟩
    cases group with
    | none =>
      rw [hcreate err hlook hnf] at hw
      simp only [List.mem_singleton] at hw
      exact ⟨_, Or.inl hw, truncateDisplayName_spec m ldapGroup.DisplayName⟩
    | some prior =>
      by_cases hdel : prior.DeleteAt = 0
      · cases err with
        | none =>
          simp [linkLdapGroup, App.traced, h1, h2, h3, h4, hext, hlook, hdel] at hw
        | some e =>
          have he := hnf e rfl
          simp [linkLdapGroup, App.traced, h1, h2, h3, h4, hext, hlook, hdel, he,
            Option.filter] at hw
      · cases err with
        | none =>
          rw [hupdate prior hlook hdel] at hw
          simp only [List.mem_singleton] at hw
          exact ⟨_, Or.inr hw, truncateDisplayName_spec m ldapGroup.DisplayName⟩
        | some e =>
          have he := hnf e rfl
          have hlog : (linkLdapGroup m app.traced c (s, [])).2.2 =
              [Write.update { prior with
                DeleteAt := 0, DisplayName := truncateDisplayName m ldapGroup.DisplayName,
                RemoteId := ldapGroup.RemoteId }] := by
            rcases hu : app.UpdateGroup s { prior with
                DeleteAt := 0, DisplayName := truncateDisplayName m ldapGroup.DisplayName,
                RemoteId := ldapGroup.RemoteId } with ⟨⟨r, _ | e2⟩, s2⟩ <;>
              simp [linkLdapGroup, App.traced, h1, h2, h3, h4, hext, hlook, hdel, he,
                Option.filter, hu]
          rw [hlog] at hw
          simp only [List.mem_singleton] at hw
          exact ⟨_, Or.inr hw, truncateDisplayName_spec m ldapGroup.DisplayName⟩

/-- Claim C4 at concrete inputs: the six-byte name "Engine" under a bound of 4 bytes, written
by a create (no prior row) and by an update (soft-deleted prior row) as "Engi". -/
theorem linkLdapGroup_writes_truncated_witness :
    (∃ g : Group Unit,
      (Write.create
          { Id := [], DisplayName := [69, 110, 103, 105], Source := [108, 100, 97, 112],
            RemoteId := [101], DeleteAt := 0, HasSyncables := false, Extra := () } =
          Write.create g ∨
        Write.create
          { Id := [], DisplayName := [69, 110, 103, 105], Source := [108, 100, 97, 112],
            RemoteId := [101], DeleteAt := 0, HasSyncables := false, Extra := () } =
          Write.update g) ∧
      g.DisplayName <+: exampleRecord.DisplayName ∧
      (exampleRecord.DisplayName.length > exampleConsts.GroupDisplayNameMaxLength →
        g.DisplayName.length = exampleConsts.GroupDisplayNameMaxLength) ∧
      (exampleRecord.DisplayName.length ≤ exampleConsts.GroupDisplayNameMaxLength →
        g.DisplayName = exampleRecord.DisplayName)) ∧
    (∃ g, (linkLdapGroup exampleConsts memApp.traced exampleContext (memFresh, [])).2.2 =
      [Write.create g]) ∧
    (∃ g, (linkLdapGroup exampleConsts memApp.traced exampleContext (memUnlinked, [])).2.2 =
      [Write.update g]) :=
  ⟨(linkLdapGroup_writes_truncated exampleConsts memApp exampleContext memFresh exampleRecord
      (by decide) (by decide)).1 _ (by decide),
    (linkLdapGroup_writes_truncated exampleConsts memApp exampleContext memFresh exampleRecord
      (by decide) (by decide)).2.1 (some noRowsError) (by decide)
      (by intro e he; cases he; rfl),
    (linkLdapGroup_writes_truncated exampleConsts memApp exampleContext memUnlinked
      exampleRecord (by decide) (by decide)).2.2 (exampleRow 500) (by decide)
      (by decide)⟩

/-- Claim C1 (idempotent link): take a repository in which the lookup for the external
record finds no row, `CreateGroup` of the new group succeeds with the row `created`, and the
lookup afterwards returns the stored row, which has the id of `created` and `DeleteAt = 0`;
the external record does not change. Then the first `linkLdapGroup` reports 201 (created)
with `created`, its only write being that create, and the second reports 200 (already
linked) with the stored row as it is, issues no create, update or delete and leaves the
state alone; both calls return a group with the same id. -/
theorem linkLdapGroup_idempotent {σ ε : Type} [Inhabited ε] (m : ModelConsts) (app : App σ ε)
    (c : Context) (s0 s1 : σ) (ldapGroup : LdapGroup) (noRow : Option AppError)
    (created stored : Group ε)
    (hg : passesGuards app c)
    (hext0 : app.GetLdapGroup s0 c.Params.RemoteId = (some ldapGroup, none))
    (hnone : app.GetGroupByRemoteID s0 ldapGroup.RemoteId m.GroupSourceLdap = (none, noRow))
    (hnf : ∀ e, noRow = some e → e.DetailedError = SqlError.ErrNoRows.Error)
    (hcreate : app.CreateGroup s0
        { Id := [], DisplayName := truncateDisplayName m ldapGroup.DisplayName,
          Source := m.GroupSourceLdap, RemoteId := ldapGroup.RemoteId, DeleteAt := 0,
          HasSyncables := false, Extra := default } = ((some created, none), s1))
    (hext1 : app.GetLdapGroup s1 c.Params.RemoteId = (some ldapGroup, none))
    (hstored : app.GetGroupByRemoteID s1 ldapGroup.RemoteId m.GroupSourceLdap =
      (some stored, none))
    (hid : stored.Id = created.Id) (hdel : stored.DeleteAt = 0) :
    linkLdapGroup m app.traced c (s0, []) =
      (.wrote StatusCreated (some created), (s1,
        [Write.create
          { Id := [], DisplayName := truncateDisplayName m ldapGroup.DisplayName,
            Source := m.GroupSourceLdap, RemoteId := ldapGroup.RemoteId, DeleteAt := 0,
            HasSyncables := false, Extra := default }])) ∧
    linkLdapGroup m app.traced c (s1, []) = (.wrote StatusOK (some stored), (s1, [])) ∧
    ∃ first second : Group ε,
      (linkLdapGroup m app.traced c (s0, [])).1 = .wrote StatusCreated (some first) ∧
      (linkLdapGroup m app.traced c (s1, [])).1 = .wrote StatusOK (some second) ∧
      first.Id = second.Id := by
  have hgt := (passesGuards_traced app c).2 hg
  have hfirst : linkLdapGroup m app.traced c (s0, []) =
      (.wrote StatusCreated (some created), (s1,
        [Write.create
          { Id := [], DisplayName := truncateDisplayName m ldapGroup.DisplayName,
            Source := m.GroupSourceLdap, RemoteId := ldapGroup.RemoteId, DeleteAt := 0,
            HasSyncables := false, Extra := default }])) := by
    rw [linkLdapGroup_of_no_row m app.traced c (s0, []) ldapGroup noRow hgt hext0 hnone hnf]
    simp [App.traced, hcreate]
  have hsecond : linkLdapGroup m app.traced c (s1, []) =
      (.wrote StatusOK (some stored), (s1, [])) :=
    linkLdapGroup_of_linked m app.traced c (s1, []) ldapGroup stored hgt hext1 hstored hdel
  refine ⟨hfirst, hsecond, created, stored, ?_, ?_, hid.symm⟩
  · rw [hfirst]
  · rw [hsecond]

/-- Claim C1 at a concrete input: the in-memory application with an empty repository and the
external record "e". The created row gets the id `NewId 7`. -/
theorem linkLdapGroup_idempotent_witness :
    linkLdapGroup exampleConsts memApp.traced exampleContext (memFresh, []) =
      (.wrote StatusCreated
        (some createdRow),
        (memCreated,
          [Write.create
            { Id := [], DisplayName := truncateDisplayName exampleConsts
                exampleRecord.DisplayName,
              Source := exampleConsts.GroupSourceLdap, RemoteId := exampleRecord.RemoteId,
              DeleteAt := 0, HasSyncables := false, Extra := default }])) ∧
    linkLdapGroup exampleConsts memApp.traced exampleContext
        (memCreated, []) =
      (.wrote StatusOK
        (some createdRow),
        (memCreated, [])) ∧
    ∃ first second : Group Unit,
      (linkLdapGroup exampleConsts memApp.traced exampleContext (memFresh, [])).1 =
        .wrote StatusCreated (some first) ∧
      (linkLdapGroup exampleConsts memApp.traced exampleContext
        (memCreated, [])).1 =
        .wrote StatusOK (some second) ∧
      first.Id = second.Id :=
  linkLdapGroup_idempotent exampleConsts memApp exampleContext memFresh
    memCreated exampleRecord
    (some noRowsError)
    createdRow createdRow
    (by decide) (by decide) (by decide) (by intro e he; cases he; rfl)
    (by decide) (by decide) (by decide) rfl rfl

/-- Claim C3 as stated fails: linking "e" over its soft-deleted row is a restore (the only
write is an update) and reports status 200, while linking "e" with no prior row is a create
and reports 201, so the two statuses differ; linking "e" over its linked row reports 200
too. -/
theorem linkLdapGroup_restore_status_is_not_created :
    (linkLdapGroup exampleConsts memApp.traced exampleContext (memUnlinked, [])).2.2 =
      [Write.update { exampleRow 0 with DisplayName := [69, 110, 103, 105] }] ∧
    (linkLdapGroup exampleConsts memApp exampleContext memUnlinked).1.status = some 200 ∧
    (linkLdapGroup exampleConsts memApp.traced exampleContext (memFresh, [])).2.2 =
      [Write.create { createdRow with Id := [] }] ∧
    (linkLdapGroup exampleConsts memApp exampleContext memFresh).1.status = some 201 ∧
    (linkLdapGroup exampleConsts memApp exampleContext memLinked).1.status = some 200 ∧
    ¬ ((linkLdapGroup exampleConsts memApp exampleContext memUnlinked).1.status =
        (linkLdapGroup exampleConsts memApp exampleContext memFresh).1.status) := by
  refine ⟨by decide, by decide, by decide, by decide, by decide, by decide⟩

/-- Claim C3, amended: for every link call that restores a soft-deleted row (prior row with
`DeleteAt ≠ 0`, update succeeds), the status `linkLdapGroup` reports is 200, the same status
it reports for an already linked row, and differs from the status 201 that it reports when
it creates a new row. -/
theorem linkLdapGroup_restore_status {σ ε : Type} [Inhabited ε] (m : ModelConsts)
    (app : App σ ε) (c : Context) (sr sa sc : σ) (lr la lc : LdapGroup)
    (prior row : Group ε) (updated created : Option (Group ε)) (sr2 sc2 : σ)
    (noRow : Option AppError)
    (hg : passesGuards app c)
    (hextr : app.GetLdapGroup sr c.Params.RemoteId = (some lr, none))
    (hrowr : app.GetGroupByRemoteID sr lr.RemoteId m.GroupSourceLdap = (some prior, none))
    (hdelr : prior.DeleteAt ≠ 0)
    (hupd : app.UpdateGroup sr { prior with
        DeleteAt := 0, DisplayName := truncateDisplayName m lr.DisplayName,
        RemoteId := lr.RemoteId } = ((updated, none), sr2))
    (hexta : app.GetLdapGroup sa c.Params.RemoteId = (some la, none))
    (hrowa : app.GetGroupByRemoteID sa la.RemoteId m.GroupSourceLdap = (some row, none))
    (hdela : row.DeleteAt = 0)
    (hextc : app.GetLdapGroup sc c.Params.RemoteId = (some lc, none))
    (hrowc : app.GetGroupByRemoteID sc lc.RemoteId m.GroupSourceLdap = (none, noRow))
    (hnf : ∀ e, noRow = some e → e.DetailedError = SqlError.ErrNoRows.Error)
    (hcre : app.CreateGroup sc
        { Id := [], DisplayName := truncateDisplayName m lc.DisplayName,
          Source := m.GroupSourceLdap, RemoteId := lc.RemoteId, DeleteAt := 0,
          HasSyncables := false, Extra := default } = ((created, none), sc2)) :
    linkLdapGroup m app c sr = (.wrote StatusOK updated, sr2) ∧
    linkLdapGroup m app c sa = (.wrote StatusOK (some row), sa) ∧
    linkLdapGroup m app c sc = (.wrote StatusCreated created, sc2) ∧
    (linkLdapGroup m app c sr).1.status = (linkLdapGroup m app c sa).1.status ∧
    (linkLdapGroup m app c sr).1.status ≠ (linkLdapGroup m app c sc).1.status := by
  have hr : linkLdapGroup m app c sr = (.wrote StatusOK updated, sr2) := by
    rw [linkLdapGroup_of_deleted m app c sr lr prior hg hextr hrowr hdelr, hupd]
  have ha : linkLdapGroup m app c sa = (.wrote StatusOK (some row), sa) :=
    linkLdapGroup_of_linked m app c sa la row hg hexta hrowa hdela
  have hc : linkLdapGroup m app c sc = (.wrote StatusCreated created, sc2) := by
    rw [linkLdapGroup_of_no_row m app c sc lc noRow hg hextc hrowc hnf, hcre]
  refine ⟨hr, ha, hc, ?_, ?_⟩
  · simp [hr, ha, Outcome.status]
  · simp [hr, hc, Outcome.status, StatusOK, StatusCreated]

/-- The amended claim C3 at concrete inputs: "e" restored from `memUnlinked`, already linked
in `memLinked`, created from `memFresh`. -/
theorem linkLdapGroup_restore_status_witness :
    linkLdapGroup exampleConsts memApp exampleContext memUnlinked =
      (.wrote StatusOK
        (some { exampleRow 0 with DisplayName := [69, 110, 103, 105] }),
        { memUnlinked with
          groups := [{ exampleRow 0 with DisplayName := [69, 110, 103, 105] }] }) ∧
    linkLdapGroup exampleConsts memApp exampleContext memLinked =
      (.wrote StatusOK (some (exampleRow 0)), memLinked) ∧
    linkLdapGroup exampleConsts memApp exampleContext memFresh =
      (.wrote StatusCreated (some createdRow), memCreated) ∧
    (linkLdapGroup exampleConsts memApp exampleContext memUnlinked).1.status =
      (linkLdapGroup exampleConsts memApp exampleContext memLinked).1.status ∧
    (linkLdapGroup exampleConsts memApp exampleContext memUnlinked).1.status ≠
      (linkLdapGroup exampleConsts memApp exampleContext memFresh).1.status :=
  linkLdapGroup_restore_status exampleConsts memApp exampleContext memUnlinked memLinked
    memFresh exampleRecord exampleRecord exampleRecord (exampleRow 500) (exampleRow 0)
    (some { exampleRow 0 with DisplayName := [69, 110, 103, 105] }) (some createdRow)
    { memUnlinked with groups := [{ exampleRow 0 with DisplayName := [69, 110, 103, 105] }] }
    memCreated (some noRowsError)
    (by decide) (by decide) (by decide) (by decide) (by decide)
    (by decide) (by decide) (by decide)
    (by decide) (by decide) (by intro e he; cases he; rfl) (by decide)

/-- With the guards passed, `unlinkLdapGroup` is decided by the lookup and, for a linked row,
by `DeleteGroup`. -/
theorem unlinkLdapGroup_of_guards {σ ε : Type} (m : ModelConsts) (app : App σ ε) (c : Context)
    (s : σ) (hg : passesGuards app c) :
    unlinkLdapGroup m app c s =
      match app.GetGroupByRemoteID s c.Params.RemoteId m.GroupSourceLdap with
      | (_, some err) => (.err err, s)
      | (none, none) => (.nilDereference, s)
      | (some group, none) =>
        if group.DeleteAt = 0 then
          match app.DeleteGroup s group.Id with
          | ((_, some err), s2) => (.err err, s2)
          | ((_, none), s2) => (.wrote StatusOK (), s2)
        else (.wrote StatusOK (), s) := by
  obtain ⟨h1, h2, license, h3, h4⟩ := passesGuards_license hg
  simp [unlinkLdapGroup, h1, h2, h3, h4]

/-- Claim C5 (unlink outcome): with the guards passed, for every repository state and remote
id: when the lookup fails (no row: the NotFound error of the lookup), `unlinkLdapGroup`
fails with that error and issues no write; when the lookup finds a row with `DeleteAt = 0`
its only write is a `DeleteGroup` of the id of that row and it succeeds whenever that call
succeeds; when the row has `DeleteAt ≠ 0` it succeeds with no write and the state as it was.
So a second unlink, run on the state left by a successful one in which the row now has
`DeleteAt ≠ 0`, succeeds with no write and no change of state. -/
theorem unlinkLdapGroup_outcome {σ ε : Type} (m : ModelConsts) (app : App σ ε) (c : Context)
    (hg : passesGuards app c) :
    (∀ (s : σ) (group : Option (Group ε)) (e : AppError),
      app.GetGroupByRemoteID s c.Params.RemoteId m.GroupSourceLdap = (group, some e) →
      unlinkLdapGroup m app.traced c (s, []) = (.err e, (s, []))) ∧
    (∀ (s : σ) (row : Group ε),
      app.GetGroupByRemoteID s c.Params.RemoteId m.GroupSourceLdap = (some row, none) →
      row.DeleteAt = 0 →
      (unlinkLdapGroup m app.traced c (s, [])).2 =
        ((app.DeleteGroup s row.Id).2, [Write.delete row.Id]) ∧
      ((app.DeleteGroup s row.Id).1.2 = none →
        (unlinkLdapGroup m app.traced c (s, [])).1 = .wrote StatusOK ())) ∧
    (∀ (s : σ) (row : Group ε),
      app.GetGroupByRemoteID s c.Params.RemoteId m.GroupSourceLdap = (some row, none) →
      row.DeleteAt ≠ 0 →
      unlinkLdapGroup m app.traced c (s, []) = (.wrote StatusOK (), (s, []))) ∧
    (∀ (s : σ) (row row2 : Group ε),
      app.GetGroupByRemoteID s c.Params.RemoteId m.GroupSourceLdap = (some row, none) →
      row.DeleteAt = 0 →
      (unlinkLdapGroup m app.traced c (s, [])).1 = .wrote StatusOK () →
      app.GetGroupByRemoteID (unlinkLdapGroup m app.traced c (s, [])).2.1 c.Params.RemoteId
        m.GroupSourceLdap = (some row2, none) →
      row2.DeleteAt ≠ 0 →
      unlinkLdapGroup m app.traced c ((unlinkLdapGroup m app.traced c (s, [])).2.1, []) =
        (.wrote StatusOK (), ((unlinkLdapGroup m app.traced c (s, [])).2.1, []))) := by
  have hgt := (passesGuards_traced app c).2 hg
  have hthird : ∀ (s : σ) (row : Group ε),
      app.GetGroupByRemoteID s c.Params.RemoteId m.GroupSourceLdap = (some row, none) →
      row.DeleteAt ≠ 0 →
      unlinkLdapGroup m app.traced c (s, []) = (.wrote StatusOK (), (s, [])) := by
    intro s row hrow hdel
    rw [unlinkLdapGroup_of_guards m app.traced c (s, []) hgt]
    simp [App.traced, hrow, hdel]
  refine ⟨?_, ?_, hthird, ?_⟩
  · intro s group e hrow
    rw [unlinkLdapGroup_of_guards m app.traced c (s, []) hgt]
    simp [App.traced, hrow]
  · intro s row hrow hdel
    rw [unlinkLdapGroup_of_guards m app.traced c (s, []) hgt]
    rcases hd : app.DeleteGroup s row.Id with ⟨⟨r, _ | e⟩, s2⟩ <;>
      simp [App.traced, hrow, hdel, hd]
  · intro s row row2 _ _ _ hrow2 hdel2
    exact hthird _ row2 hrow2 hdel2

/-- Claim C5 at concrete inputs: "e" with no row (`memFresh`), linked (`memLinked`),
soft-deleted (`memUnlinked`), and unlinked twice from `memLinked`, where the first unlink
stamps the row with the time 1000. -/
theorem unlinkLdapGroup_outcome_witness :
    unlinkLdapGroup exampleConsts memApp.traced exampleContext (memFresh, []) =
      (.err noRowsError, (memFresh, [])) ∧
    ((unlinkLdapGroup exampleConsts memApp.traced exampleContext (memLinked, [])).2 =
        ((memApp.DeleteGroup memLinked (exampleRow 0).Id).2,
          [Write.delete (exampleRow 0).Id]) ∧
      ((memApp.DeleteGroup memLinked (exampleRow 0).Id).1.2 = none →
        (unlinkLdapGroup exampleConsts memApp.traced exampleContext (memLinked, [])).1 =
          .wrote StatusOK ())) ∧
    unlinkLdapGroup exampleConsts memApp.traced exampleContext (memUnlinked, []) =
      (.wrote StatusOK (), (memUnlinked, [])) ∧
    unlinkLdapGroup exampleConsts memApp.traced exampleContext
        ((unlinkLdapGroup exampleConsts memApp.traced exampleContext (memLinked, [])).2.1,
          []) =
      (.wrote StatusOK (),
        ((unlinkLdapGroup exampleConsts memApp.traced exampleContext (memLinked, [])).2.1,
          [])) :=
  ⟨(unlinkLdapGroup_outcome exampleConsts memApp exampleContext (by decide)).1
      memFresh none noRowsError (by decide),
    (unlinkLdapGroup_outcome exampleConsts memApp exampleContext (by decide)).2.1
      memLinked (exampleRow 0) (by decide) (by decide),
    (unlinkLdapGroup_outcome exampleConsts memApp exampleContext (by decide)).2.2.1
      memUnlinked (exampleRow 500) (by decide) (by decide),
    (unlinkLdapGroup_outcome exampleConsts memApp exampleContext
      (by decide)).2.2.2
      memLinked (exampleRow 0) (exampleRow 1000) (by decide) (by decide) (by decide)
      (by decide) (by decide)⟩

/-! ## Theorems: the merged listing -/

/-- A loop that appends one image per element builds the accumulator followed by the images in
order. -/
theorem foldl_append_singleton {α β : Type} (f : α → β) (xs : List α) (acc : List β) :
    xs.foldl (fun out x => out ++ [f x]) acc = acc ++ xs.map f := by
  induction xs generalizing acc with
  | nil => simp
  | cons x xs ih => simp [ih]

/-- Claim C6 (merged listing): with the permission and licence checks passed, for every list
of rows and total that `GetAllLdapGroupsPage` returns without error, `getLdapGroups` answers
with exactly one view per row in the same order; each view copies the display name and the
remote id of its row; its `Id` and `HasSyncables` are both set, to the id and `HasSyncables`
of the row, when the id of the row has length 26, and both null otherwise; and the reported
count is the total returned by the query engine, whatever the length of the page. -/
theorem getLdapGroups_views {σ ε : Type} (app : App σ ε) (c : Context) (s : σ)
    (groups : List (Group ε)) (total : Int) (license : License)
    (hperm : app.SessionHasPermissionTo .PERMISSION_MANAGE_SYSTEM = true)
    (hlic : app.License = some license) (hfeat : license.Features.LDAPGroups = true)
    (hpage : app.GetAllLdapGroupsPage s c.Params.Page c.Params.PerPage
      { Q := c.Params.Q, IsLinked := c.Params.IsLinked,
        IsConfigured := c.Params.IsConfigured } = (groups, total, none)) :
    ∃ views : List mixedUnlinkedGroup,
      getLdapGroups app c s = .wrote StatusOK { Count := total, Groups := views } ∧
      views.length = groups.length ∧
      List.Forall₂ (fun (group : Group ε) (view : mixedUnlinkedGroup) =>
        view.DisplayName = group.DisplayName ∧ view.RemoteId = group.RemoteId ∧
        (group.Id.length = 26 →
          view.Id = some group.Id ∧ view.HasSyncables = some group.HasSyncables) ∧
        (group.Id.length ≠ 26 → view.Id = none ∧ view.HasSyncables = none)) groups views := by
  have hopts : (if c.Params.IsConfigured ≠ none then
        { (if c.Params.IsLinked ≠ none then
            { ({ Q := c.Params.Q, IsLinked := none, IsConfigured := none } :
                LdapGroupSearchOpts) with IsLinked := c.Params.IsLinked }
          else { Q := c.Params.Q, IsLinked := none, IsConfigured := none }) with
          IsConfigured := c.Params.IsConfigured }
      else (if c.Params.IsLinked ≠ none then
          { ({ Q := c.Params.Q, IsLinked := none, IsConfigured := none } :
              LdapGroupSearchOpts) with IsLinked := c.Params.IsLinked }
        else { Q := c.Params.Q, IsLinked := none, IsConfigured := none })) =
      ({ Q := c.Params.Q, IsLinked := c.Params.IsLinked,
         IsConfigured := c.Params.IsConfigured } : LdapGroupSearchOpts) := by
    cases h1 : c.Params.IsLinked <;> cases h2 : c.Params.IsConfigured <;> simp
  refine ⟨groups.map (fun group =>
    if group.Id.length = 26 then
      { Id := some group.Id, DisplayName := group.DisplayName, RemoteId := group.RemoteId,
        HasSyncables := some group.HasSyncables }
    else
      { Id := none, DisplayName := group.DisplayName, RemoteId := group.RemoteId,
        HasSyncables := none }), ?_, by simp, ?_⟩
  · unfold getLdapGroups
    simp only [hperm, hlic, hfeat, hopts, hpage]
    simp [foldl_append_singleton]
  · rw [List.forall₂_map_right_iff, List.forall₂_same]
    intro group _
    by_cases h : group.Id.length = 26 <;> simp [h]

/-- Claim C6 at concrete inputs: a directory of two records of which "e" is linked, listed
one row per page. Page 0 holds the linked row, with its 26-byte id and `HasSyncables`; page 1
holds the unlinked row, with both null; the count is 2 on both pages. -/
theorem getLdapGroups_views_witness :
    (∃ views : List mixedUnlinkedGroup,
      getLdapGroups memApp (pageContext 0) memMixed =
        .wrote StatusOK { Count := 2, Groups := views } ∧
      views.length = [exampleRow 0].length ∧
      List.Forall₂ (fun (group : Group Unit) (view : mixedUnlinkedGroup) =>
        view.DisplayName = group.DisplayName ∧ view.RemoteId = group.RemoteId ∧
        (group.Id.length = 26 →
          view.Id = some group.Id ∧ view.HasSyncables = some group.HasSyncables) ∧
        (group.Id.length ≠ 26 → view.Id = none ∧ view.HasSyncables = none))
        [exampleRow 0] views) ∧
    (∃ views : List mixedUnlinkedGroup,
      getLdapGroups memApp (pageContext 1) memMixed =
        .wrote StatusOK { Count := 2, Groups := views } ∧
      views.length =
        [({ Id := [], DisplayName := [79, 112, 115], Source := [], RemoteId := [102],
            DeleteAt := 0, HasSyncables := false, Extra := () } : Group Unit)].length ∧
      List.Forall₂ (fun (group : Group Unit) (view : mixedUnlinkedGroup) =>
        view.DisplayName = group.DisplayName ∧ view.RemoteId = group.RemoteId ∧
        (group.Id.length = 26 →
          view.Id = some group.Id ∧ view.HasSyncables = some group.HasSyncables) ∧
        (group.Id.length ≠ 26 → view.Id = none ∧ view.HasSyncables = none))
        [{ Id := [], DisplayName := [79, 112, 115], Source := [], RemoteId := [102],
           DeleteAt := 0, HasSyncables := false, Extra := () }] views) :=
  ⟨getLdapGroups_views memApp (pageContext 0) memMixed [exampleRow 0] 2
      { Features := { LDAP := true, LDAPGroups := true } } rfl rfl rfl (by decide),
    getLdapGroups_views memApp (pageContext 1) memMixed
      [{ Id := [], DisplayName := [79, 112, 115], Source := [], RemoteId := [102],
         DeleteAt := 0, HasSyncables := false, Extra := () }] 2
      { Features := { LDAP := true, LDAPGroups := true } } rfl rfl rfl (by decide)⟩

end Matterfoss
